import Mathlib

set_option linter.unusedVariables false

/-!
Verification of the object-persistence and content-indexing core of the
`open_notebook` backend, shallowly embedded from
`src/fastapi_backend/src/open_notebook/domain/base.py` and
`src/fastapi_backend/src/open_notebook/domain/notebook.py`.
Store values are modelled by the inductive type `SVal`; the repository,
text-splitting and embedding collaborators become explicit parameters;
exceptions become an `Except` error kind.
-/

/-- Store values as seen by the domain layer. `vRecord` models a SurrealDB
`RecordID` (an object with `table_name` and `record_id` attributes),
`vCompactTS` models a `DateTimeCompact` (an object whose `timestamp`
attribute holds an integer nanosecond epoch), and `vDatetime` models a Python
`datetime` in whole seconds. Note that a Python `datetime` also exposes a
`timestamp` *method*, so the source's `hasattr(value, "timestamp")` test is
true for `vDatetime` as well; `int(value.timestamp)` then raises a
`TypeError` on the bound method, which the source catches per field. -/
inductive SVal where
  | vNone
  | vBool (b : Bool)
  | vInt (n : Int)
  | vStr (s : String)
  | vRecord (table key : String)
  | vCompactTS (ns : Int)
  | vDatetime (sec : Int)
  | vList (xs : List SVal)
  | vDict (kvs : List (String × SVal))

/-- The f-string of `base.py` line 43: a `RecordID` becomes the string
`table:key`. -/
def record_to_string (table key : String) : String := table ++ ":" ++ key

/-- Line 46 of `base.py`: nanoseconds floored to seconds (Python `//` is
floor division, hence `Int.fdiv`). -/
def ns_to_seconds (ns : Int) : Int := Int.fdiv ns 1000000000

/-- Whether a direct list element makes the list comprehension of
`_convert_surreal_types` (lines 50-56 of `base.py`) raise: only a Python
`datetime` does, because `int(item.timestamp)` is applied to a bound method.
The raise propagates to the per-key `except` handler, whose fallback keeps
the whole list unchanged (the list itself has neither a `table_name` nor a
`timestamp` attribute). -/
def raises_in_list : SVal → Bool
  | .vDatetime _ => true
  | _ => false

mutual

/-- One element of a list value in `_convert_surreal_types` (the list
comprehension, lines 50-56 of `base.py`): a dict element is converted
recursively, a `RecordID` becomes `table:key`, a `DateTimeCompact` becomes a
`datetime`, everything else (including a nested list) is kept as is.
A `datetime` element would raise; that case is cut off by the
`raises_in_list` guard in `convert_field_value`. -/
def convert_list_item : SVal → SVal
  | .vDict kvs => .vDict (convert_surreal_types kvs)
  | .vRecord t k => .vStr (record_to_string t k)
  | .vCompactTS ns => .vDatetime (ns_to_seconds ns)
  | v => v

/-- The list comprehension itself, elementwise. -/
def convert_list : List SVal → List SVal
  | [] => []
  | x :: xs => convert_list_item x :: convert_list xs

/-- Conversion of one field value of `_convert_surreal_types` (lines 38-75 of
`base.py`), with the per-key try/except folded in: a `datetime` value takes
the exception path (both `int` applications on the bound method raise) and is
kept unchanged; a list containing a `datetime` element makes the
comprehension raise and the fallback keeps the original list. -/
def convert_field_value : SVal → SVal
  | .vNone => .vNone
  | .vRecord t k => .vStr (record_to_string t k)
  | .vCompactTS ns => .vDatetime (ns_to_seconds ns)
  | .vDatetime s => .vDatetime s
  | .vList xs => if xs.any raises_in_list then .vList xs else .vList (convert_list xs)
  | .vDict kvs => .vDict (convert_surreal_types kvs)
  | v => v

/-- `ObjectModel._convert_surreal_types` (lines 31-76 of `base.py`): convert
every field of a row independently. The `if not data: return {}` short
circuit coincides with the empty case. -/
def convert_surreal_types : List (String × SVal) → List (String × SVal)
  | [] => []
  | (k, v) :: rest => (k, convert_field_value v) :: convert_surreal_types rest

end

mutual

/-- A value contains no store-native types (no record reference, no compact
timestamp) anywhere inside it. -/
def native_free : SVal → Bool
  | .vRecord _ _ => false
  | .vCompactTS _ => false
  | .vList xs => native_free_list xs
  | .vDict kvs => native_free_dict kvs
  | _ => true

def native_free_list : List SVal → Bool
  | [] => true
  | x :: xs => native_free x && native_free_list xs

def native_free_dict : List (String × SVal) → Bool
  | [] => true
  | (_, v) :: rest => native_free v && native_free_dict rest

end

/-- Error taxonomy of the domain layer. Modelled from the spec: the module
`open_notebook/exceptions.py` is imported by `base.py` but is not under
`src/`; spec section 7 names exactly the three kinds `NotFoundError`,
`InvalidInputError` and `DatabaseOperationError` raised by this core. -/
inductive OnError where
  | notFound
  | invalidInput
  | databaseOperation
deriving DecidableEq, Repr

/-- Body of the `try` block of `ObjectModel.get_all` (lines 78-119 of
`base.py`): an empty `table_name` (`get_all` called on `ObjectModel` itself)
raises `InvalidInputError`; otherwise every fetched row is converted and
constructed independently, and a row whose construction fails
(`ValidationError` or any other exception, modelled by `construct` returning
`none`) is logged and skipped. -/
def get_all_core {τ : Type} (tableName : String) (rows : List (List (String × SVal)))
    (construct : List (String × SVal) → Option τ) : Except OnError (List τ) :=
  if tableName = "" then .error .invalidInput
  else .ok (rows.filterMap (fun r => construct (convert_surreal_types r)))

/-- `ObjectModel.get_all` (lines 77-123 of `base.py`): the surrounding
`except Exception` handler re-wraps any error escaping the `try` block —
including the `InvalidInputError` raised for a missing table name — as
`DatabaseOperationError`. -/
def get_all {τ : Type} (tableName : String) (rows : List (List (String × SVal)))
    (construct : List (String × SVal) → Option τ) : Except OnError (List τ) :=
  match get_all_core tableName rows construct with
  | .ok v => .ok v
  | .error _ => .error .databaseOperation

/-- A concrete entity type, identified by its declared `table_name` class
variable (`notebook`, `source`, `note`, `source_insight`, `source_embedding`,
`chat_session`, ...; the base `ObjectModel` declares the empty string). -/
structure EntityClass where
  tableName : String
deriving DecidableEq, Repr

/-- Line 135 of `base.py`: `id_str.split(":")[0] if ":" in id_str else
id_str` — the table name is everything before the first colon of the id, or
the whole id when it has no colon. -/
def table_name_of_id (id : String) : String :=
  String.mk (id.data.takeWhile (fun c => c != ':'))

/-- `ObjectModel._get_class_by_table_name` (lines 173-187 of `base.py`):
walk all transitive subclasses of `ObjectModel` (modelled as the list
`registry`, in scan order) and return the first one whose declared
`table_name` equals the prefix. -/
def get_class_by_table_name (registry : List EntityClass) (tn : String) : Option EntityClass :=
  registry.find? (fun c => c.tableName == tn)

/-- Lines 137-145 of `base.py`: if the calling class has a non-empty
`table_name` equal to the prefix, use the calling class itself; otherwise
scan the subclass registry. -/
def resolve_class (cls : EntityClass) (registry : List EntityClass) (tn : String) :
    Option EntityClass :=
  if cls.tableName ≠ "" ∧ cls.tableName = tn then some cls
  else get_class_by_table_name registry tn

/-- Body of the `try` block of `ObjectModel.get` (lines 133-164 of
`base.py`): resolve the concrete class for the id prefix (no class found
raises `InvalidInputError`), fetch the rows for the id, convert the first row
and construct the target-class instance (`ValidationError` modelled by
`construct` returning `none`); zero rows raise `NotFoundError`. -/
def get_core {τ : Type} (cls : EntityClass) (registry : List EntityClass) (id : String)
    (fetch : String → List (List (String × SVal)))
    (construct : EntityClass → List (String × SVal) → Option τ) :
    Except OnError (EntityClass × τ) :=
  match resolve_class cls registry (table_name_of_id id) with
  | none => .error .invalidInput
  | some target =>
    match fetch id with
    | [] => .error .notFound
    | r :: _ =>
      match construct target (convert_surreal_types r) with
      | none => .error .notFound
      | some inst => .ok (target, inst)

/-- `ObjectModel.get` (lines 125-171 of `base.py`). An empty id raises
`InvalidInputError` before the `try` block; the `except ValidationError` and
`except Exception` handlers turn every error escaping the `try` block into
`NotFoundError`. The returned pair carries the resolved concrete class
together with the constructed instance. -/
def get_by_id {τ : Type} (cls : EntityClass) (registry : List EntityClass) (id : String)
    (fetch : String → List (List (String × SVal)))
    (construct : EntityClass → List (String × SVal) → Option τ) :
    Except OnError (EntityClass × τ) :=
  if id = "" then .error .invalidInput
  else
    match get_core cls registry id fetch construct with
    | .ok v => .ok v
    | .error _ => .error .notFound

/-- Python dict assignment `data[key] = value`: dict keys are unique and
insertion-ordered, so assignment replaces the entry for `key` in place or
appends a fresh entry at the end. -/
def dict_set : List (String × SVal) → String → SVal → List (String × SVal)
  | [], k, v => [(k, v)]
  | (k', v') :: rest, k, v =>
    if k' = k then (k, v) :: rest else (k', v') :: dict_set rest k v

/-- An in-memory entity of the `ObjectModel` framework. Timestamps are
modelled as integer seconds, matching the second resolution of the
`"%Y-%m-%d %H:%M:%S"` format used by `save`. `needs_embedding` and
`embedding_content` model the two overridable hooks (lines 189-193 of
`base.py`); `fields` holds the remaining declared model fields, with
`SVal.vNone` for a field whose value is Python `None`. -/
structure Entity where
  id : Option String
  created : Option Int
  updated : Option Int
  fields : List (String × SVal)
  needs_embedding : Bool
  embedding_content : Option String

def opt_str : Option String → SVal
  | none => .vNone
  | some s => .vStr s

def opt_time : Option Int → SVal
  | none => .vNone
  | some t => .vDatetime t

def is_vnone : SVal → Bool
  | .vNone => true
  | _ => false

/-- `self.model_dump()`: all declared fields, including `id`, `created` and
`updated` of the base class. -/
def model_dump (e : Entity) : List (String × SVal) :=
  ("id", opt_str e.id) :: ("created", opt_time e.created) ::
    ("updated", opt_time e.updated) :: e.fields

/-- `ObjectModel._prepare_save_data` (lines 255-257 of `base.py`): the field
map with every `None`-valued entry removed. -/
def prepare_save_data (e : Entity) : List (String × SVal) :=
  (model_dump e).filter (fun p => !is_vnone p.2)

/-- `current_embedding_model.embed([content])[0] if current_embedding_model
else []` (lines 212-216 of `base.py`). -/
def embed_vec (embedM : Option (String → List SVal)) (c : String) : List SVal :=
  match embedM with
  | some embed => embed c
  | none => []

/-- Python truthiness of `self.get_embedding_content()`: `None` and the empty
string are both falsy. -/
def truthy_content (e : Entity) : Option String :=
  match e.embedding_content with
  | some c => if c = "" then none else some c
  | none => none

/-- Lines 203-216 of `base.py`: when the entity declares it needs embedding
and has truthy embeddable content, consult the process-wide embedding model;
log a warning when it is absent (second component) and store the computed
vector, or the empty vector when no model is configured. -/
def embed_step (data : List (String × SVal)) (e : Entity)
    (embedM : Option (String → List SVal)) : List (String × SVal) × Bool :=
  if e.needs_embedding then
    match truthy_content e with
    | some c => (dict_set data "embedding" (.vList (embed_vec embedM c)), embedM.isNone)
    | none => (data, false)
  else (data, false)

/-- Lines 230-241 of `base.py`: refresh every in-memory field from the
converted store response via `object.__setattr__`, so store-assigned ids and
timestamps become visible on the caller's object. Keys absent from the
response leave the attribute unchanged. -/
def refresh (e : Entity) (row : List (String × SVal)) : Entity :=
  { e with
    id := match row.lookup "id" with
      | some (.vStr s) => some s
      | some .vNone => none
      | some _ => e.id
      | none => e.id
    created := match row.lookup "created" with
      | some (.vDatetime t) => some t
      | some .vNone => none
      | some _ => e.created
      | none => e.created
    updated := match row.lookup "updated" with
      | some (.vDatetime t) => some t
      | some .vNone => none
      | some _ => e.updated
      | none => e.updated
    fields := e.fields.map (fun p => match row.lookup p.1 with
      | some v => (p.1, v)
      | none => p) }

/-- Result of one `save()` call: the refreshed in-memory entity, the payload
sent to the store, the row the store answered with, whether the
missing-embedding-model warning was logged, and which branch ran. -/
structure SaveResult where
  entity : Entity
  payload : List (String × SVal)
  row : List (String × SVal)
  warned_no_model : Bool
  created_branch : Bool

/-- `ObjectModel.save` (lines 195-253 of `base.py`). The initial
`model_validate` re-check is assumed to pass (model-typed entities). The two
`datetime.now()` reads are passed in as `tUpd` (line 201, the `updated`
stamp, read first) and `tCre` (line 219, the create-branch `created` stamp,
read second). On the create branch the store assigns the id
`table:freshKey` via `repo_create`; on the update branch `data["created"]`
is copied from the in-memory `created` value after the `None` filtering, and
`repo_update` round-trips the payload. -/
def save (e : Entity) (table freshKey : String) (embedM : Option (String → List SVal))
    (tUpd tCre : Int) : SaveResult :=
  let data0 := prepare_save_data e
  let data1 := dict_set data0 "updated" (.vDatetime tUpd)
  let step := embed_step data1 e embedM
  match e.id with
  | none =>
    let data3 := dict_set step.1 "created" (.vDatetime tCre)
    let row := dict_set data3 "id" (.vStr (record_to_string table freshKey))
    ⟨refresh e row, data3, row, step.2, true⟩
  | some _ =>
    let data3 := dict_set step.1 "created" (opt_time e.created)
    ⟨refresh e data3, data3, data3, step.2, false⟩

/-- One persisted `source_embedding` row (the `CREATE source_embedding
CONTENT` statement of `notebook.py` lines 233-242). -/
structure EmbRow where
  source : String
  order : Nat
  content : String
  embedding : List Int
deriving DecidableEq, Repr

/-- `process_chunk` (lines 208-218 of `notebook.py`): one worker turns the
task `(idx, chunk)` into `(idx, embedding, cleaned_content)`, carrying the
original chunk index through the pipeline. -/
def process_chunk (embed : String → List Int) (clean : String → String)
    (p : Nat × String) : Nat × List Int × String :=
  (p.1, embed p.2, clean p.2)

/-- The thread pool's completion log: workers finish in the order given by
the schedule `σ` (a permutation of the task indices), and each completed
task deposits its result keyed by its index. -/
def pool_finish {α : Type} (f : Nat → α) (σ : List Nat) : List (Nat × α) :=
  σ.map (fun i => (i, f i))

/-- `executor.map` semantics: results are read back in task order 0..N-1,
by index, regardless of the completion order recorded in the log. -/
def pool_collect {α : Type} (N : Nat) (completed : List (Nat × α)) : Option (List α) :=
  (List.range N).mapM (fun i => completed.lookup i)

/-- `Source.vectorize` (lines 188-249 of `notebook.py`). A falsy `full_text`
(absent or empty) returns with no inserts, as does a zero-chunk split.
Otherwise the chunks are embedded by a worker pool (`max_workers=8`; the
schedule `σ` records the completion order, which a bound of 8 merely
constrains) and the results are inserted in task order, one
`source_embedding` row per chunk with `order` equal to the carried index.
When no embedding model is configured, `current_embedding_model.embed`
inside a worker raises `AttributeError` on `None` (there is no guard in
`vectorize`, unlike `save` and `add_insight`), and the surrounding handler
wraps the escaped exception as `DatabaseOperationError`. -/
def vectorize (src : String) (full_text : Option String) (split : String → List String)
    (embedM : Option (String → List Int)) (clean : String → String) (σ : List Nat) :
    Except OnError (List EmbRow) :=
  match full_text with
  | none => .ok []
  | some t =>
    if t = "" then .ok []
    else
      let chunks := split t
      if chunks.length = 0 then .ok []
      else
        match embedM with
        | none => .error .databaseOperation
        | some embed =>
          let f := fun i => process_chunk embed clean (i, chunks.getD i "")
          match pool_collect chunks.length (pool_finish f σ) with
          | none => .error .databaseOperation
          | some results =>
            .ok (results.map (fun r => ⟨src, r.1, r.2.2, r.2.1⟩))

/-- Modelled from the spec: `surreal_clean` is imported from
`open_notebook/utils.py`, which is not under `src/`. The spec's
insight-upsert contract (section 4.5) says the existing row's *content* is
updated to the given content (and a created row stores the given content),
with no content transformation mentioned anywhere, so the cleaning step is
modelled as the identity on text. -/
def surreal_clean (s : String) : String := s

/-- One row of the `source_insight` table. `rid` is the store-assigned
record key; `created`/`updated` are the framework timestamps (integer
seconds; the store stamps `created` at creation, spec section 3). -/
structure InsightRow where
  rid : Nat
  source : String
  insight_type : String
  content : String
  embedding : List Int
  created : Int
  updated : Int
deriving DecidableEq, Repr

/-- The `source_insight` table plus the store's fresh-key counter. -/
structure InsightState where
  rows : List InsightRow
  nextId : Nat
deriving DecidableEq, Repr

/-- The `WHERE source = $source_id AND insight_type = $insight_type` filter
of the lookup query in `add_insight` (lines 271-282 of `notebook.py`). -/
def insight_matches (src t : String) (r : InsightRow) : Bool :=
  r.source == src && r.insight_type == t

/-- `ORDER BY created DESC LIMIT 1`: the most recently created matching row
(ties resolved in table order, which no claim exercises). -/
def most_recent : List InsightRow → Option InsightRow
  | [] => none
  | r :: rs =>
    match most_recent rs with
    | none => some r
    | some m => if m.created > r.created then some m else some r

/-- `current_embedding_model.embed([content])[0] if current_embedding_model
else []` as it appears in `add_insight` (lines 289 and 308 of
`notebook.py`). -/
def insight_embed (embedM : Option (String → List Int)) (c : String) : List Int :=
  match embedM with
  | some embed => embed c
  | none => []

/-- `Source.add_insight` (lines 251-328 of `notebook.py`): warn when no
embedding model is configured (second result component); reject an empty
`insight_type` or `content` with `InvalidInputError`; then either update the
most recently created row of the same `(source, insight_type)` pair in place
(new content, recomputed best-effort embedding, advanced `updated`
timestamp) or create a fresh row. The embedding degrades to the empty vector
when no model is configured (`... if current_embedding_model else []`). -/
def add_insight (st : InsightState) (src t c : String)
    (embedM : Option (String → List Int)) (now : Int) :
    Except OnError (InsightState × Bool) :=
  let warned := embedM.isNone
  if t = "" ∨ c = "" then .error .invalidInput
  else
    let existing := st.rows.filter (insight_matches src t)
    let emb := insight_embed embedM c
    match most_recent existing with
    | some ex =>
      .ok (⟨st.rows.map (fun r => if r.rid = ex.rid then
        { r with content := surreal_clean c, embedding := emb, updated := now }
        else r), st.nextId⟩, warned)
    | none =>
      .ok (⟨st.rows ++ [⟨st.nextId, src, t, surreal_clean c, emb, now, now⟩],
        st.nextId + 1⟩, warned)

/-- State of a `RecordModel` singleton instance, plus a counter of the
persist (`repo_upsert`) calls issued to the store. -/
structure RecState where
  fields : List (String × SVal)
  persist_count : Nat

/-- `RecordModel.update` (lines 357-375 of `base.py`): one full-row
`repo_upsert`, followed by a re-read applied with `object.__setattr__`
(comment in the source: avoids triggering validation again). Only the
persist count matters to the claims; the reconciling re-read is the
identity here because the store round-trips the upserted row. -/
def record_update (st : RecState) : RecState :=
  { st with persist_count := st.persist_count + 1 }

/-- One `setattr(self, key, value)` under the pydantic config
`validate_assignment = True` (line 303 of `base.py`): each assignment
re-runs `auto_save_validator`, the `model_validator(mode="after")` of lines
351-355, which calls `update()` — one more persist — whenever the class
opted into `auto_save`. -/
def set_field (auto_save : Bool) (st : RecState) (k : String) (v : SVal) : RecState :=
  let st' := { st with fields := dict_set st.fields k v }
  if auto_save then record_update st' else st'

/-- `RecordModel.patch` (lines 383-387 of `base.py`): assign every entry of
the dictionary in order via `setattr`, then call `self.update()` once. -/
def patch (auto_save : Bool) (st : RecState) (kvs : List (String × SVal)) : RecState :=
  record_update (kvs.foldl (fun s p => set_field auto_save s p.1 p.2) st)

theorem native_free_list_iff (xs : List SVal) :
    native_free_list xs = true ↔ ∀ x ∈ xs, native_free x = true := by
  induction xs with
  | nil => simp [native_free_list]
  | cons x xs ih => simp [native_free_list, Bool.and_eq_true, ih]

theorem native_free_dict_iff (kvs : List (String × SVal)) :
    native_free_dict kvs = true ↔ ∀ kv ∈ kvs, native_free kv.2 = true := by
  induction kvs with
  | nil => simp [native_free_dict]
  | cons kv rest ih =>
    obtain ⟨k, v⟩ := kv
    simp [native_free_dict, Bool.and_eq_true, ih]

theorem convert_list_id_of (xs : List SVal)
    (h : ∀ x ∈ xs, convert_list_item x = x) : convert_list xs = xs := by
  induction xs with
  | nil => rfl
  | cons x xs ih =>
    simp only [convert_list, List.cons.injEq]
    exact ⟨h x (by simp), ih (fun y hy => h y (by simp [hy]))⟩

theorem convert_list_idem_of (xs : List SVal)
    (h : ∀ x ∈ xs, convert_list_item (convert_list_item x) = convert_list_item x) :
    convert_list (convert_list xs) = convert_list xs := by
  induction xs with
  | nil => rfl
  | cons x xs ih =>
    simp only [convert_list, List.cons.injEq]
    exact ⟨h x (by simp), ih (fun y hy => h y (by simp [hy]))⟩

theorem convert_dict_id_of (kvs : List (String × SVal))
    (h : ∀ kv ∈ kvs, convert_field_value kv.2 = kv.2) :
    convert_surreal_types kvs = kvs := by
  induction kvs with
  | nil => rfl
  | cons kv rest ih =>
    obtain ⟨k, v⟩ := kv
    simp only [convert_surreal_types, List.cons.injEq, Prod.mk.injEq]
    refine ⟨⟨?_, h (k, v) (by simp)⟩, ih (fun p hp => h p (by simp [hp]))⟩
    trivial

theorem convert_dict_idem_of (kvs : List (String × SVal))
    (h : ∀ kv ∈ kvs, convert_field_value (convert_field_value kv.2) = convert_field_value kv.2) :
    convert_surreal_types (convert_surreal_types kvs) = convert_surreal_types kvs := by
  induction kvs with
  | nil => rfl
  | cons kv rest ih =>
    obtain ⟨k, v⟩ := kv
    simp only [convert_surreal_types, List.cons.injEq, Prod.mk.injEq]
    refine ⟨⟨?_, h (k, v) (by simp)⟩, ih (fun p hp => h p (by simp [hp]))⟩
    trivial

theorem convert_strong (n : Nat) : ∀ v : SVal, sizeOf v ≤ n →
    (convert_field_value (convert_field_value v) = convert_field_value v) ∧
    (native_free v = true → convert_field_value v = v) ∧
    (convert_list_item (convert_list_item v) = convert_list_item v) ∧
    (native_free v = true → convert_list_item v = v) := by
  induction n with
  | zero =>
    intro v hv
    exfalso
    cases v <;> simp at hv
  | succ n ih =>
    intro v hv
    cases v with
    | vNone => exact ⟨rfl, fun _ => rfl, rfl, fun _ => rfl⟩
    | vBool b => exact ⟨rfl, fun _ => rfl, rfl, fun _ => rfl⟩
    | vInt m => exact ⟨rfl, fun _ => rfl, rfl, fun _ => rfl⟩
    | vStr s => exact ⟨rfl, fun _ => rfl, rfl, fun _ => rfl⟩
    | vRecord t k =>
      refine ⟨rfl, ?_, rfl, ?_⟩ <;> · intro h; simp [native_free] at h
    | vCompactTS ns =>
      refine ⟨rfl, ?_, rfl, ?_⟩ <;> · intro h; simp [native_free] at h
    | vDatetime s => exact ⟨rfl, fun _ => rfl, rfl, fun _ => rfl⟩
    | vList xs =>
      have hmem : ∀ x ∈ xs, sizeOf x ≤ n := by
        intro x hx
        have h1 := List.sizeOf_lt_of_mem hx
        have h2 : sizeOf (SVal.vList xs) = 1 + sizeOf xs := by simp
        omega
      have hitem : convert_list_item (SVal.vList xs) = SVal.vList xs := rfl
      refine ⟨?_, ?_, by rw [hitem, hitem], fun _ => hitem⟩
      · cases hb : xs.any raises_in_list with
        | true => simp [convert_field_value, hb]
        | false =>
          simp only [convert_field_value, hb, Bool.false_eq_true, if_false]
          cases hb2 : (convert_list xs).any raises_in_list with
          | true => simp [convert_field_value, hb2]
          | false =>
            simp only [convert_field_value, hb2, Bool.false_eq_true, if_false, SVal.vList.injEq]
            exact convert_list_idem_of xs (fun x hx => (ih x (hmem x hx)).2.2.1)
      · intro h
        have hx : ∀ x ∈ xs, native_free x = true :=
          (native_free_list_iff xs).1 (by simpa [native_free] using h)
        cases hb : xs.any raises_in_list with
        | true => simp [convert_field_value, hb]
        | false =>
          simp only [convert_field_value, hb, Bool.false_eq_true, if_false, SVal.vList.injEq]
          exact convert_list_id_of xs (fun x hx' => (ih x (hmem x hx')).2.2.2 (hx x hx'))
    | vDict kvs =>
      have hmem : ∀ kv ∈ kvs, sizeOf kv.2 ≤ n := by
        intro kv hkv
        have h1 := List.sizeOf_lt_of_mem hkv
        have h2 : sizeOf (SVal.vDict kvs) = 1 + sizeOf kvs := by simp
        have h3 : sizeOf kv.2 < sizeOf kv := by
          obtain ⟨k, v⟩ := kv
          simp only [Prod.mk.sizeOf_spec]
          omega
        omega
      have hidem : convert_surreal_types (convert_surreal_types kvs) = convert_surreal_types kvs :=
        convert_dict_idem_of kvs (fun kv hkv => (ih kv.2 (hmem kv hkv)).1)
      refine ⟨by simp [convert_field_value, hidem], ?_, by simp [convert_list_item, hidem], ?_⟩
      · intro h
        have hx : ∀ kv ∈ kvs, native_free kv.2 = true :=
          (native_free_dict_iff kvs).1 (by simpa [native_free] using h)
        simp only [convert_field_value, SVal.vDict.injEq]
        exact convert_dict_id_of kvs (fun kv hkv => (ih kv.2 (hmem kv hkv)).2.1 (hx kv hkv))
      · intro h
        have hx : ∀ kv ∈ kvs, native_free kv.2 = true :=
          (native_free_dict_iff kvs).1 (by simpa [native_free] using h)
        simp only [convert_list_item, SVal.vDict.injEq]
        exact convert_dict_id_of kvs (fun kv hkv => (ih kv.2 (hmem kv hkv)).2.1 (hx kv hkv))

theorem convert_field_value_idem (v : SVal) :
    convert_field_value (convert_field_value v) = convert_field_value v :=
  (convert_strong (sizeOf v) v le_rfl).1

theorem convert_field_value_of_native_free (v : SVal) (h : native_free v = true) :
    convert_field_value v = v :=
  (convert_strong (sizeOf v) v le_rfl).2.1 h

theorem convert_surreal_types_idem (kvs : List (String × SVal)) :
    convert_surreal_types (convert_surreal_types kvs) = convert_surreal_types kvs :=
  convert_dict_idem_of kvs (fun kv _ => convert_field_value_idem kv.2)

theorem convert_surreal_types_of_native_free (kvs : List (String × SVal))
    (h : native_free (.vDict kvs) = true) : convert_surreal_types kvs = kvs :=
  convert_dict_id_of kvs (fun kv hkv =>
    convert_field_value_of_native_free kv.2
      ((native_free_dict_iff kvs).1 (by simpa [native_free] using h) kv hkv))

/-- C7: the type normalizer `_convert_surreal_types` is idempotent: on any row
containing no store-native record-reference or compact-timestamp values it is
the identity, and re-applying it to the result of a first application always
returns that result unchanged. -/
theorem claim_C7_normalizer_idempotent :
    (∀ kvs : List (String × SVal), native_free (.vDict kvs) = true →
      convert_surreal_types kvs = kvs) ∧
    (∀ kvs : List (String × SVal),
      convert_surreal_types (convert_surreal_types kvs) = convert_surreal_types kvs) :=
  ⟨convert_surreal_types_of_native_free, convert_surreal_types_idem⟩

/-- Witness for C7 at a concrete native-free row and at a concrete row holding
a record reference and a compact timestamp. -/
theorem claim_C7_normalizer_idempotent_witness :
    (native_free (.vDict [("title", .vStr "hello"), ("topics", .vList [.vStr "a", .vInt 3]),
        ("created", .vDatetime 1700000000)]) = true ∧
      convert_surreal_types [("title", .vStr "hello"), ("topics", .vList [.vStr "a", .vInt 3]),
        ("created", .vDatetime 1700000000)] =
        [("title", .vStr "hello"), ("topics", .vList [.vStr "a", .vInt 3]),
        ("created", .vDatetime 1700000000)]) ∧
    convert_surreal_types (convert_surreal_types
        [("id", .vRecord "note" "abc"), ("updated", .vCompactTS 1700000000000000000)]) =
      convert_surreal_types
        [("id", .vRecord "note" "abc"), ("updated", .vCompactTS 1700000000000000000)] :=
  ⟨⟨rfl, claim_C7_normalizer_idempotent.1 _ rfl⟩,
    claim_C7_normalizer_idempotent.2 _⟩

/-- C6: `get_all` over a table returns exactly the instances built from the
rows whose construction succeeds, skipping each failing row, and does not
fail as a whole; in particular one malformed row among two valid rows yields
exactly the two valid instances. -/
theorem claim_C6_get_all_partial_success {τ : Type} :
    (∀ (tableName : String) (rows : List (List (String × SVal)))
        (construct : List (String × SVal) → Option τ), tableName ≠ "" →
      get_all tableName rows construct =
        .ok (rows.filterMap (fun r => construct (convert_surreal_types r)))) ∧
    (∀ (tableName : String) (r1 rbad r2 : List (String × SVal)) (t1 t2 : τ)
        (construct : List (String × SVal) → Option τ), tableName ≠ "" →
      construct (convert_surreal_types r1) = some t1 →
      construct (convert_surreal_types rbad) = none →
      construct (convert_surreal_types r2) = some t2 →
      get_all tableName [r1, rbad, r2] construct = .ok [t1, t2]) := by
  constructor
  · intro tableName rows construct h
    simp [get_all, get_all_core, h]
  · intro tableName r1 rbad r2 t1 t2 construct h h1 hb h2
    simp [get_all, get_all_core, h, List.filterMap, h1, hb, h2]

/-- Witness for C6: a concrete table with one malformed row between two valid
rows lists exactly the two valid instances. -/
theorem claim_C6_get_all_partial_success_witness :
    get_all "note" [[("title", .vStr "a")], [("bad", .vNone)], [("title", .vStr "b")]]
      (fun r => match r with
        | [("title", .vStr s)] => some s
        | _ => none) = .ok ["a", "b"] :=
  claim_C6_get_all_partial_success.2 "note" _ _ _ "a" "b" _ (by simp) rfl rfl rfl

/-- C9: calling `get_all` on the base `ObjectModel` class itself (whose
`table_name` is the empty string) raises `InvalidInputError` inside the `try`
block, and the surrounding handler re-wraps it, so the caller always sees
`DatabaseOperationError`, never `InvalidInputError`. -/
theorem claim_C9_get_all_base_class_error {τ : Type} :
    ∀ (rows : List (List (String × SVal))) (construct : List (String × SVal) → Option τ),
      get_all_core "" rows construct = .error .invalidInput ∧
      get_all "" rows construct = .error .databaseOperation := by
  intro rows construct
  constructor <;> simp [get_all, get_all_core]

/-- C5: `get(id)` resolves the concrete type whose declared table name equals
the id's prefix — the calling type itself when it matches, otherwise the
first match in the subclass scan — and returns an instance of that concrete
type; it fails with `NotFoundError` both on zero rows and on a construction
(data-validation) failure. -/
theorem claim_C5_get_polymorphic_dispatch {τ : Type} :
    (∀ (cls C : EntityClass) (registry : List EntityClass) (tn : String),
      resolve_class cls registry tn = some C → C.tableName = tn) ∧
    (∀ (cls C : EntityClass) (registry : List EntityClass) (id : String)
        (fetch : String → List (List (String × SVal)))
        (construct : EntityClass → List (String × SVal) → Option τ)
        (r : List (String × SVal)) (rs : List (List (String × SVal))) (t : τ),
      id ≠ "" →
      resolve_class cls registry (table_name_of_id id) = some C →
      fetch id = r :: rs →
      construct C (convert_surreal_types r) = some t →
      get_by_id cls registry id fetch construct = .ok (C, t)) ∧
    (∀ (cls : EntityClass) (registry : List EntityClass) (id : String)
        (fetch : String → List (List (String × SVal)))
        (construct : EntityClass → List (String × SVal) → Option τ),
      id ≠ "" → fetch id = [] →
      get_by_id cls registry id fetch construct = .error .notFound) ∧
    (∀ (cls C : EntityClass) (registry : List EntityClass) (id : String)
        (fetch : String → List (List (String × SVal)))
        (construct : EntityClass → List (String × SVal) → Option τ)
        (r : List (String × SVal)) (rs : List (List (String × SVal))),
      id ≠ "" →
      resolve_class cls registry (table_name_of_id id) = some C →
      fetch id = r :: rs →
      construct C (convert_surreal_types r) = none →
      get_by_id cls registry id fetch construct = .error .notFound) := by
  refine ⟨?_, ?_, ?_, ?_⟩
  · intro cls C registry tn h
    unfold resolve_class at h
    split at h
    · rename_i hc
      cases h
      exact hc.2
    · have hp := List.find?_some h
      simpa using hp
  · intro cls C registry id fetch construct r rs t hid hres hfetch hcon
    simp [get_by_id, hid, get_core, hres, hfetch, hcon]
  · intro cls registry id fetch construct hid hfetch
    cases hres : resolve_class cls registry (table_name_of_id id) with
    | none => simp [get_by_id, hid, get_core, hres]
    | some C => simp [get_by_id, hid, get_core, hres, hfetch]
  · intro cls C registry id fetch construct r rs hid hres hfetch hcon
    simp [get_by_id, hid, get_core, hres, hfetch, hcon]

/-- Witness for C5: calling `get` with id `note:abc123` from the base entity
class (empty table name) against a registry containing the `note` class
returns an instance tagged with the `note` class, not the base class. -/
theorem claim_C5_get_polymorphic_dispatch_witness :
    get_by_id (τ := String) ⟨""⟩ [⟨"notebook"⟩, ⟨"source"⟩, ⟨"note"⟩] "note:abc123"
      (fun _ => [[("id", .vRecord "note" "abc123"), ("title", .vStr "T")]])
      (fun c r => if c.tableName = "note" then
          match r with
          | ("id", .vStr s) :: _ => some s
          | _ => none
        else none) = .ok (⟨"note"⟩, "note:abc123") :=
  claim_C5_get_polymorphic_dispatch.2.1 ⟨""⟩ ⟨"note"⟩ _ _ _ _ _ [] _
    (by simp) (by decide) rfl rfl

theorem lookup_dict_set_self (l : List (String × SVal)) (k : String) (v : SVal) :
    (dict_set l k v).lookup k = some v := by
  have hself : (k == k) = true := beq_self_eq_true k
  induction l with
  | nil => simp [dict_set, List.lookup, hself]
  | cons p rest ih =>
    obtain ⟨k', v'⟩ := p
    by_cases h : k' = k
    · simp [dict_set, h, List.lookup, hself]
    · have hb : (k == k') = false := by simp [Ne.symm h]
      simp [dict_set, h, List.lookup, hb, ih]

theorem lookup_dict_set_ne (l : List (String × SVal)) (k k' : String) (v : SVal)
    (h : k' ≠ k) : (dict_set l k v).lookup k' = l.lookup k' := by
  have hb : (k' == k) = false := by simp [h]
  induction l with
  | nil => simp [dict_set, List.lookup, hb]
  | cons p rest ih =>
    obtain ⟨k₀, v₀⟩ := p
    by_cases h0 : k₀ = k
    · subst h0
      simp [dict_set, List.lookup, hb]
    · by_cases h1 : k' = k₀
      · have hb1 : (k' == k₀) = true := by simp [h1]
        simp [dict_set, h0, List.lookup, hb1]
      · have hb1 : (k' == k₀) = false := by simp [h1]
        simp [dict_set, h0, List.lookup, hb1, ih]

theorem mem_dict_set (l : List (String × SVal)) (k : String) (v : SVal)
    (p : String × SVal) (hp : p ∈ dict_set l k v) : p ∈ l ∨ p = (k, v) := by
  induction l with
  | nil => simp [dict_set] at hp; simp [hp]
  | cons q rest ih =>
    obtain ⟨k', v'⟩ := q
    by_cases h : k' = k
    · simp [dict_set, h] at hp
      rcases hp with hp | hp
      · right; simp [hp]
      · left; simp [hp]
    · simp [dict_set, h] at hp
      rcases hp with hp | hp
      · left; simp [hp]
      · rcases ih hp with hin | heq
        · left; simp [hin]
        · right; exact heq

theorem embed_step_lookup_ne (data : List (String × SVal)) (e : Entity)
    (embedM : Option (String → List SVal)) (k : String) (hk : k ≠ "embedding") :
    ((embed_step data e embedM).1).lookup k = data.lookup k := by
  unfold embed_step
  split
  · split
    · simp [lookup_dict_set_ne _ _ _ _ hk]
    · rfl
  · rfl

theorem record_to_string_ne_empty (table key : String) :
    record_to_string table key ≠ "" := by
  unfold record_to_string
  intro h
  have hlen := congrArg String.length h
  have h1 : (":" : String).length = 1 := rfl
  simp [String.length_append, h1] at hlen

theorem save_create_spec (e : Entity) (he : e.id = none) (table freshKey : String)
    (embedM : Option (String → List SVal)) (tUpd tCre : Int) :
    (save e table freshKey embedM tUpd tCre).created_branch = true ∧
    (save e table freshKey embedM tUpd tCre).entity.id =
      some (record_to_string table freshKey) ∧
    (save e table freshKey embedM tUpd tCre).entity.created = some tCre ∧
    (save e table freshKey embedM tUpd tCre).entity.updated = some tUpd ∧
    (save e table freshKey embedM tUpd tCre).entity.needs_embedding = e.needs_embedding ∧
    (save e table freshKey embedM tUpd tCre).entity.embedding_content = e.embedding_content := by
  have h1 : ("created" : String) ≠ "id" := by decide
  have h2 : ("updated" : String) ≠ "id" := by decide
  have h3 : ("updated" : String) ≠ "created" := by decide
  have h4 : ("updated" : String) ≠ "embedding" := by decide
  refine ⟨?_, ?_, ?_, ?_, ?_, ?_⟩ <;>
    simp [save, he, refresh, lookup_dict_set_self, lookup_dict_set_ne _ _ _ _ h1,
      lookup_dict_set_ne _ _ _ _ h2, lookup_dict_set_ne _ _ _ _ h3,
      embed_step_lookup_ne _ _ _ _ h4]

theorem save_update_spec (e : Entity) (i : String) (hi : e.id = some i)
    (table freshKey : String) (embedM : Option (String → List SVal)) (tUpd tCre : Int) :
    (save e table freshKey embedM tUpd tCre).created_branch = false ∧
    (save e table freshKey embedM tUpd tCre).entity.created = e.created ∧
    (save e table freshKey embedM tUpd tCre).entity.updated = some tUpd ∧
    (save e table freshKey embedM tUpd tCre).entity.needs_embedding = e.needs_embedding ∧
    (save e table freshKey embedM tUpd tCre).entity.embedding_content = e.embedding_content := by
  have h3 : ("updated" : String) ≠ "created" := by decide
  have h4 : ("updated" : String) ≠ "embedding" := by decide
  refine ⟨?_, ?_, ?_, ?_, ?_⟩
  · simp [save, hi]
  · cases hc : e.created with
    | none => simp [save, hi, refresh, lookup_dict_set_self, hc, opt_time]
    | some c => simp [save, hi, refresh, lookup_dict_set_self, hc, opt_time]
  · simp [save, hi, refresh, lookup_dict_set_self, lookup_dict_set_ne _ _ _ _ h3,
      embed_step_lookup_ne _ _ _ _ h4]
  · simp [save, hi, refresh]
  · simp [save, hi, refresh]

/-- C3: saving an entity with unset `id` takes the create branch, stamps
`created` and `updated` with the two consecutive `datetime.now()` reads (so
they are equal whenever the clock did not tick between them, i.e. within
clock resolution) and acquires the non-empty store-assigned id; saving again
with the id set takes the update branch, leaves `created` at its original
value and sets `updated` to the later read of the monotone clock. -/
theorem claim_C3_save_create_then_update (e : Entity) (he : e.id = none)
    (table k1 k2 : String) (em em' : Option (String → List SVal)) (t1 t2 t3 t4 : Int) :
    (save e table k1 em t1 t2).created_branch = true ∧
    (save e table k1 em t1 t2).entity.id = some (record_to_string table k1) ∧
    record_to_string table k1 ≠ "" ∧
    (save e table k1 em t1 t2).entity.created = some t2 ∧
    (save e table k1 em t1 t2).entity.updated = some t1 ∧
    (t1 = t2 →
      (save e table k1 em t1 t2).entity.created = (save e table k1 em t1 t2).entity.updated) ∧
    (save (save e table k1 em t1 t2).entity table k2 em' t3 t4).created_branch = false ∧
    (save (save e table k1 em t1 t2).entity table k2 em' t3 t4).entity.created = some t2 ∧
    (save (save e table k1 em t1 t2).entity table k2 em' t3 t4).entity.updated = some t3 ∧
    (t1 < t3 → ∃ u u', (save e table k1 em t1 t2).entity.updated = some u ∧
      (save (save e table k1 em t1 t2).entity table k2 em' t3 t4).entity.updated = some u' ∧
      u < u') := by
  obtain ⟨hb, hid, hcre, hupd, hnemb, hcont⟩ := save_create_spec e he table k1 em t1 t2
  obtain ⟨hb', hcre', hupd', hnemb', hcont'⟩ :=
    save_update_spec _ _ hid table k2 em' t3 t4
  refine ⟨hb, hid, record_to_string_ne_empty _ _, hcre, hupd, ?_, hb', ?_, hupd', ?_⟩
  · intro h12
    rw [hcre, hupd, h12]
  · rw [hcre', hcre]
  · intro h13
    exact ⟨t1, t3, hupd, hupd', h13⟩

/-- Witness for C3: a concrete fresh entity saved at clock reads 10, 10 and
re-saved at 11, 12 shows `created = updated` after the first save and an
unchanged `created` with an advanced `updated` after the second. -/
theorem claim_C3_save_create_then_update_witness :
    (save ⟨none, none, none, [], false, none⟩ "note" "a" none 10 10).entity.id = some "note:a" ∧
    (save ⟨none, none, none, [], false, none⟩ "note" "a" none 10 10).entity.created =
      (save ⟨none, none, none, [], false, none⟩ "note" "a" none 10 10).entity.updated ∧
    (save (save ⟨none, none, none, [], false, none⟩ "note" "a" none 10 10).entity
      "note" "b" none 11 12).entity.created = some 10 ∧
    (save (save ⟨none, none, none, [], false, none⟩ "note" "a" none 10 10).entity
      "note" "b" none 11 12).entity.updated = some 11 := by
  have h := claim_C3_save_create_then_update ⟨none, none, none, [], false, none⟩ rfl
    "note" "a" "b" none none 10 10 11 12
  exact ⟨h.2.1, h.2.2.2.2.2.1 rfl, h.2.2.2.2.2.2.2.1, h.2.2.2.2.2.2.2.2.1⟩

theorem prepare_save_data_none_free (e : Entity) (p : String × SVal)
    (hp : p ∈ prepare_save_data e) : is_vnone p.2 = false := by
  unfold prepare_save_data at hp
  have h := List.of_mem_filter hp
  simpa using h

theorem embed_step_none_free (data : List (String × SVal)) (e : Entity)
    (embedM : Option (String → List SVal))
    (h : ∀ q ∈ data, is_vnone q.2 = false) :
    ∀ q ∈ (embed_step data e embedM).1, is_vnone q.2 = false := by
  intro q hq
  unfold embed_step at hq
  split at hq
  · split at hq
    · rcases mem_dict_set _ _ _ _ hq with hin | heq
      · exact h q hin
      · rw [heq]
        rfl
    · exact h q hq
  · exact h q hq

theorem lookup_filter_none (l : List (String × SVal)) (k : String)
    (h : ∀ v, (k, v) ∈ l → is_vnone v = true) :
    (l.filter (fun p => !is_vnone p.2)).lookup k = none := by
  induction l with
  | nil => rfl
  | cons p rest ih =>
    obtain ⟨k0, v0⟩ := p
    by_cases hk : k0 = k
    · subst hk
      have hv := h v0 (by simp)
      simp only [List.filter, hv, Bool.not_true]
      exact ih (fun v hv' => h v (by simp [hv']))
    · cases hdrop : is_vnone v0 with
      | true =>
        simp only [List.filter, hdrop, Bool.not_true]
        exact ih (fun v hv' => h v (by simp [hv']))
      | false =>
        have hb : (k == k0) = false := by simp [Ne.symm hk]
        simp only [List.filter, hdrop, Bool.not_false, List.lookup, hb]
        exact ih (fun v hv' => h v (by simp [hv']))

/-- Counterexample to C10 as stated: an entity whose `id` is set but whose
in-memory `created` is `None` reaches the update branch, where
`data["created"] = self.created` is assigned *after* the `None` filtering, so
the payload sent to the store maps `created` to `None`. -/
theorem claim_C10_counterexample :
    ((save ⟨some "note:abc", none, some 5, [], false, none⟩
      "note" "k" none 10 11).payload).lookup "created" = some SVal.vNone := rfl

/-- C10 as amended: the data sent on either branch is the entity's field map
with every `None`-valued entry removed, plus the framework-set `updated`
(and `created`, and possibly `embedding`) entries; on the create branch the
payload therefore contains no `None` value at all, and on any branch the only
possible `None`-valued entry is `created`, sent exactly when the update
branch runs with an in-memory `created` of `None`. A declared field set to
`None` in memory (and not named `id`/`created`/`updated`/`embedding`) is
absent from the payload, so its stored value is left unchanged. -/
theorem claim_C10_save_none_handling :
    (∀ (e : Entity) (table freshKey : String) (embedM : Option (String → List SVal))
        (tUpd tCre : Int) (p : String × SVal), e.id = none →
      p ∈ (save e table freshKey embedM tUpd tCre).payload → is_vnone p.2 = false) ∧
    (∀ (e : Entity) (table freshKey : String) (embedM : Option (String → List SVal))
        (tUpd tCre : Int) (p : String × SVal),
      p ∈ (save e table freshKey embedM tUpd tCre).payload → is_vnone p.2 = true →
      p.1 = "created" ∧ e.created = none) ∧
    (∀ (e : Entity) (table freshKey : String) (embedM : Option (String → List SVal))
        (tUpd tCre : Int) (k : String),
      k ≠ "id" → k ≠ "created" → k ≠ "updated" → k ≠ "embedding" →
      (∀ v, (k, v) ∈ e.fields → v = .vNone) →
      ((save e table freshKey embedM tUpd tCre).payload).lookup k = none) := by
  have hstep : ∀ (e : Entity) (embedM : Option (String → List SVal)) (tUpd : Int)
      (q : String × SVal),
      q ∈ (embed_step (dict_set (prepare_save_data e) "updated" (.vDatetime tUpd))
        e embedM).1 → is_vnone q.2 = false := by
    intro e embedM tUpd q hq
    refine embed_step_none_free _ _ _ ?_ q hq
    intro q' hq'
    rcases mem_dict_set _ _ _ _ hq' with hin | heq
    · exact prepare_save_data_none_free e q' hin
    · rw [heq]
      rfl
  refine ⟨?_, ?_, ?_⟩
  · intro e table freshKey embedM tUpd tCre p he hp
    rw [show (save e table freshKey embedM tUpd tCre).payload =
        dict_set (embed_step (dict_set (prepare_save_data e) "updated" (.vDatetime tUpd))
          e embedM).1 "created" (.vDatetime tCre) by simp [save, he]] at hp
    rcases mem_dict_set _ _ _ _ hp with hin | heq
    · exact hstep e embedM tUpd p hin
    · rw [heq]
      rfl
  · intro e table freshKey embedM tUpd tCre p hp hnone
    cases he : e.id with
    | none =>
      rw [show (save e table freshKey embedM tUpd tCre).payload =
          dict_set (embed_step (dict_set (prepare_save_data e) "updated" (.vDatetime tUpd))
            e embedM).1 "created" (.vDatetime tCre) by simp [save, he]] at hp
      rcases mem_dict_set _ _ _ _ hp with hin | heq
      · rw [hstep e embedM tUpd p hin] at hnone
        cases hnone
      · rw [heq] at hnone
        cases hnone
    | some i =>
      rw [show (save e table freshKey embedM tUpd tCre).payload =
          dict_set (embed_step (dict_set (prepare_save_data e) "updated" (.vDatetime tUpd))
            e embedM).1 "created" (opt_time e.created) by simp [save, he]] at hp
      rcases mem_dict_set _ _ _ _ hp with hin | heq
      · rw [hstep e embedM tUpd p hin] at hnone
        cases hnone
      · cases hc : e.created with
        | none => exact ⟨by rw [heq], rfl⟩
        | some c =>
          rw [heq, hc] at hnone
          cases hnone
  · intro e table freshKey embedM tUpd tCre k hid hcre hupd hemb hfields
    have hbase : ((prepare_save_data e).lookup k) = none := by
      refine lookup_filter_none _ _ ?_
      intro v hv
      unfold model_dump at hv
      simp only [List.mem_cons] at hv
      rcases hv with hv | hv | hv | hv
      · exact absurd (congrArg Prod.fst hv) hid
      · exact absurd (congrArg Prod.fst hv) hcre
      · exact absurd (congrArg Prod.fst hv) hupd
      · rw [hfields v hv]
        rfl
    have hchain : ∀ (cval : SVal),
        (dict_set (embed_step (dict_set (prepare_save_data e) "updated" (.vDatetime tUpd))
          e embedM).1 "created" cval).lookup k = none := by
      intro cval
      rw [lookup_dict_set_ne _ _ _ _ hcre, embed_step_lookup_ne _ _ _ _ hemb,
        lookup_dict_set_ne _ _ _ _ hupd]
      exact hbase
    cases he : e.id with
    | none =>
      rw [show (save e table freshKey embedM tUpd tCre).payload =
          dict_set (embed_step (dict_set (prepare_save_data e) "updated" (.vDatetime tUpd))
            e embedM).1 "created" (.vDatetime tCre) by simp [save, he]]
      exact hchain _
    | some i =>
      rw [show (save e table freshKey embedM tUpd tCre).payload =
          dict_set (embed_step (dict_set (prepare_save_data e) "updated" (.vDatetime tUpd))
            e embedM).1 "created" (opt_time e.created) by simp [save, he]]
      exact hchain _

/-- Witness for C10 (amended): a concrete entity with a `None`-valued `title`
field produces a create-branch payload with no `None` entries and no `title`
entry at all. -/
theorem claim_C10_save_none_handling_witness :
    ((save ⟨none, none, none, [("title", .vNone)], false, none⟩
      "source" "k" none 10 10).payload).lookup "title" = none :=
  claim_C10_save_none_handling.2.2 ⟨none, none, none, [("title", .vNone)], false, none⟩
    "source" "k" none 10 10 "title" (by decide) (by decide) (by decide) (by decide)
    (by intro v hv; simp at hv; exact hv)

theorem lookup_pool_finish {α : Type} (f : Nat → α) (σ : List Nat) (i : Nat)
    (hi : i ∈ σ) : (pool_finish f σ).lookup i = some (f i) := by
  induction σ with
  | nil => cases hi
  | cons j σ ih =>
    by_cases h : i = j
    · subst h
      simp [pool_finish, List.lookup]
    · have hb : (i == j) = false := by simp [h]
      have hi' : i ∈ σ := by
        rcases List.mem_cons.mp hi with h' | h'
        · exact absurd h' h
        · exact h'
      simpa [pool_finish, List.lookup, hb] using ih hi'

theorem mapM_eq_map_of_forall {β γ : Type} (l : List β) (g : β → Option γ) (h : β → γ)
    (hall : ∀ b ∈ l, g b = some (h b)) : l.mapM g = some (l.map h) := by
  induction l with
  | nil => rfl
  | cons b l ih =>
    rw [List.mapM_cons, hall b (by simp), ih (fun b' hb' => hall b' (by simp [hb']))]
    rfl

theorem pool_collect_pool_finish {α : Type} (N : Nat) (f : Nat → α) (σ : List Nat)
    (hσ : ∀ i < N, i ∈ σ) :
    pool_collect N (pool_finish f σ) = some ((List.range N).map f) := by
  unfold pool_collect
  refine mapM_eq_map_of_forall _ _ _ ?_
  intro i hi
  exact lookup_pool_finish f σ i (hσ i (List.mem_range.mp hi))

/-- C1: for a source whose text splits into N ≥ 1 chunks, a successful
`vectorize()` persists exactly N rows whose `order` values are exactly
`0..N-1`, for every completion order of the concurrent workers; a text
splitting into zero chunks (or an absent/empty text) persists nothing and
returns without error. -/
theorem claim_C1_vectorize_dense_order (src : String) (t : String)
    (split : String → List String) (embed : String → List Int)
    (clean : String → String) (σ : List Nat) :
    (t ≠ "" → (split t).length ≠ 0 → σ.Perm (List.range (split t).length) →
      vectorize src (some t) split (some embed) clean σ =
        .ok ((List.range (split t).length).map
          (fun i => ⟨src, i, clean ((split t).getD i ""), embed ((split t).getD i "")⟩)) ∧
      ∃ rows, vectorize src (some t) split (some embed) clean σ = .ok rows ∧
        rows.length = (split t).length ∧
        rows.map (fun r => r.order) = List.range (split t).length) ∧
    (split t = [] → vectorize src (some t) split (some embed) clean σ = .ok []) ∧
    (t = "" → vectorize src (some t) split (some embed) clean σ = .ok []) ∧
    vectorize src none split (some embed) clean σ = .ok [] := by
  refine ⟨?_, ?_, ?_, rfl⟩
  · intro ht hn hperm
    have hmem : ∀ i < (split t).length, i ∈ σ := by
      intro i hi
      exact hperm.mem_iff.mpr (List.mem_range.mpr hi)
    have hcollect := pool_collect_pool_finish (split t).length
      (fun i => process_chunk embed clean (i, (split t).getD i "")) σ hmem
    have hrun : vectorize src (some t) split (some embed) clean σ =
        .ok ((List.range (split t).length).map
          (fun i => ⟨src, i, clean ((split t).getD i ""), embed ((split t).getD i "")⟩)) := by
      simp only [vectorize, ht, if_false, hn, hcollect]
      rw [List.map_map]
      rfl
    refine ⟨hrun, _, hrun, ?_, ?_⟩
    · simp
    · rw [List.map_map]
      have : ((fun r : EmbRow => r.order) ∘
          (fun i => (⟨src, i, clean ((split t).getD i ""), embed ((split t).getD i "")⟩ : EmbRow))) =
          fun i => i := rfl
      rw [this]
      exact List.map_id _
  · intro hsplit
    simp [vectorize, hsplit]
  · intro ht
    simp [vectorize, ht]

/-- Witness for C1: a text splitting into 5 chunks, with the workers
finishing in the out-of-order schedule `[3, 1, 4, 0, 2]`, persists exactly
the orders `0,1,2,3,4`. -/
theorem claim_C1_vectorize_dense_order_witness :
    vectorize "source:s" (some "abcde") (fun t => t.data.map (fun c => String.mk [c]))
      (some (fun s => [(s.length : Int)])) (fun s => s) [3, 1, 4, 0, 2] =
      .ok ((List.range 5).map
        (fun i => ⟨"source:s", i,
          (("abcde" : String).data.map (fun c => String.mk [c])).getD i "",
          [1]⟩)) := by
  have h := (claim_C1_vectorize_dense_order "source:s" "abcde"
    (fun t => t.data.map (fun c => String.mk [c])) (fun s => [(s.length : Int)])
    (fun s => s) [3, 1, 4, 0, 2]).1 (by decide) (by decide) (by decide)
  rw [h.1]
  rfl

theorem filter_map_update_nil (rows : List InsightRow) (src t : String)
    (upd : InsightRow → InsightRow)
    (hsrc : ∀ r, (upd r).source = r.source) (hty : ∀ r, (upd r).insight_type = r.insight_type)
    (h : rows.filter (insight_matches src t) = []) :
    (rows.map upd).filter (insight_matches src t) = [] := by
  rw [List.filter_eq_nil_iff] at h ⊢
  intro a ha
  rcases List.mem_map.mp ha with ⟨r, hr, rfl⟩
  have : insight_matches src t (upd r) = insight_matches src t r := by
    unfold insight_matches
    rw [hsrc, hty]
  rw [this]
  simpa using h r hr

/-- C2: from a state with no current insight of the given type for the
source, calling `add_insight(t, A)` and then `add_insight(t, B)` leaves
exactly one `source_insight` row for the `(source, t)` pair, and its content
is `B`: the second call updates the row the first call created instead of
creating a second one. -/
theorem claim_C2_add_insight_single_slot (st : InsightState) (src t A B : String)
    (em em' : Option (String → List Int)) (n1 n2 : Int)
    (hclean : st.rows.filter (insight_matches src t) = [])
    (ht : t ≠ "") (hA : A ≠ "") (hB : B ≠ "") :
    ∃ st1 w1 st2 w2,
      add_insight st src t A em n1 = .ok (st1, w1) ∧
      add_insight st1 src t B em' n2 = .ok (st2, w2) ∧
      (st2.rows.filter (insight_matches src t)).map (fun r => r.content) = [B] ∧
      (st2.rows.filter (insight_matches src t)).length = 1 := by
  have hmatch0 : insight_matches src t
      (⟨st.nextId, src, t, surreal_clean A,
        insight_embed em A, n1, n1⟩ : InsightRow) = true := by
    simp [insight_matches]
  have h1 : add_insight st src t A em n1 =
      .ok ((⟨st.rows ++ [⟨st.nextId, src, t, surreal_clean A,
        insight_embed em A, n1, n1⟩],
        st.nextId + 1⟩ : InsightState), em.isNone) := by
    simp [add_insight, ht, hA, hclean, most_recent]
  have hfil : (st.rows ++ [(⟨st.nextId, src, t, surreal_clean A,
      insight_embed em A, n1, n1⟩ : InsightRow)]).filter
      (insight_matches src t) =
      [⟨st.nextId, src, t, surreal_clean A,
        insight_embed em A, n1, n1⟩] := by
    rw [List.filter_append, hclean]
    simp [hmatch0]
  have h2 : add_insight (⟨st.rows ++ [⟨st.nextId, src, t, surreal_clean A,
      insight_embed em A, n1, n1⟩],
      st.nextId + 1⟩ : InsightState) src t B em' n2 =
      .ok ((⟨(st.rows ++ [(⟨st.nextId, src, t, surreal_clean A,
        insight_embed em A, n1, n1⟩ : InsightRow)]).map
        (fun (r : InsightRow) => if r.rid = st.nextId then
          { r with
            content := surreal_clean B,
            embedding := insight_embed em' B,
            updated := n2 }
          else r), st.nextId + 1⟩ : InsightState), em'.isNone) := by
    simp [add_insight, ht, hB, hfil, most_recent]
  have hleft : ((st.rows.map (fun r => if r.rid = st.nextId then
      { r with
        content := surreal_clean B,
        embedding := insight_embed em' B,
        updated := n2 }
      else r)).filter (insight_matches src t)) = [] := by
    refine filter_map_update_nil st.rows src t _ ?_ ?_ hclean
    · intro r
      by_cases h : r.rid = st.nextId <;> simp [h]
    · intro r
      by_cases h : r.rid = st.nextId <;> simp [h]
  refine ⟨_, _, _, _, h1, h2, ?_, ?_⟩
  · rw [List.map_append, List.filter_append, hleft]
    simp [insight_matches, surreal_clean]
  · rw [List.map_append, List.filter_append, hleft]
    simp [insight_matches]

/-- Witness for C2: on an empty table, adding a `summary` insight with
content `A` and then one with content `B` leaves exactly one `summary` row,
whose content is `B`. -/
theorem claim_C2_add_insight_single_slot_witness :
    ∃ st1 w1 st2 w2,
      add_insight ⟨[], 0⟩ "source:1" "summary" "A" none 1 = .ok (st1, w1) ∧
      add_insight st1 "source:1" "summary" "B" none 2 = .ok (st2, w2) ∧
      (st2.rows.filter (insight_matches "source:1" "summary")).map (fun r => r.content) =
        ["B"] ∧
      (st2.rows.filter (insight_matches "source:1" "summary")).length = 1 :=
  claim_C2_add_insight_single_slot ⟨[], 0⟩ "source:1" "summary" "A" "B" none none 1 2
    rfl (by decide) (by decide) (by decide)

/-- Counterexample to C4 as stated: with no embedding provider configured,
`vectorize()` on a source whose text splits into one chunk does not insert
an empty-vector row — `current_embedding_model.embed` is called on `None`
inside the worker with no guard, the `AttributeError` escapes, and the
handler wraps it as `DatabaseOperationError`. -/
theorem claim_C4_counterexample :
    vectorize "source:s" (some "hello") (fun _ => ["hello"]) none (fun s => s) [0] =
      .error .databaseOperation := rfl

/-- C4 as amended: when no embedding provider is configured, `save()` of an
embeddable entity with content logs the warning and stores the empty vector,
and `add_insight()` logs the warning, completes, and stores empty-vector
rows; but `vectorize()` on a source with at least one chunk fails with
`DatabaseOperationError` instead of inserting empty-vector rows, because it
alone consults the provider without a `None` guard. -/
theorem claim_C4_no_embedding_provider :
    (∀ (e : Entity) (table freshKey : String) (tUpd tCre : Int) (c : String),
      e.needs_embedding = true → truthy_content e = some c →
      (save e table freshKey none tUpd tCre).warned_no_model = true ∧
      ((save e table freshKey none tUpd tCre).payload).lookup "embedding" =
        some (.vList [])) ∧
    (∀ (st : InsightState) (src t c : String) (n : Int), t ≠ "" → c ≠ "" →
      ∃ st', add_insight st src t c none n = .ok (st', true) ∧
        ∀ r ∈ st'.rows, r ∉ st.rows → r.embedding = []) ∧
    (∀ (src t : String) (split : String → List String) (clean : String → String)
        (σ : List Nat), t ≠ "" → (split t).length ≠ 0 →
      vectorize src (some t) split none clean σ = .error .databaseOperation) := by
  refine ⟨?_, ?_, ?_⟩
  · intro e table freshKey tUpd tCre c hne htc
    have hstep2 : ∀ data, (embed_step data e none).2 = true := by
      intro data
      simp [embed_step, hne, htc]
    have hstep1 : ∀ data, ((embed_step data e none).1).lookup "embedding" =
        some (.vList []) := by
      intro data
      simp [embed_step, hne, htc, lookup_dict_set_self, embed_vec]
    have hcre : ("embedding" : String) ≠ "created" := by decide
    constructor
    · cases he : e.id with
      | none => simpa [save, he] using hstep2 _
      | some i => simpa [save, he] using hstep2 _
    · cases he : e.id with
      | none =>
        rw [show (save e table freshKey none tUpd tCre).payload =
            dict_set (embed_step (dict_set (prepare_save_data e) "updated"
              (.vDatetime tUpd)) e none).1 "created" (.vDatetime tCre) by simp [save, he]]
        rw [lookup_dict_set_ne _ _ _ _ hcre]
        exact hstep1 _
      | some i =>
        rw [show (save e table freshKey none tUpd tCre).payload =
            dict_set (embed_step (dict_set (prepare_save_data e) "updated"
              (.vDatetime tUpd)) e none).1 "created" (opt_time e.created) by simp [save, he]]
        rw [lookup_dict_set_ne _ _ _ _ hcre]
        exact hstep1 _
  · intro st src t c n ht hc
    cases hmr : most_recent (st.rows.filter (insight_matches src t)) with
    | none =>
      refine ⟨⟨st.rows ++ [⟨st.nextId, src, t, surreal_clean c, insight_embed none c, n, n⟩],
        st.nextId + 1⟩, ?_, ?_⟩
      · simp [add_insight, ht, hc, hmr]
      · intro r hr hnot
        rcases List.mem_append.mp hr with h | h
        · exact absurd h hnot
        · rw [List.mem_singleton.mp h]
          rfl
    | some ex =>
      refine ⟨⟨st.rows.map (fun (r : InsightRow) => if r.rid = ex.rid then
          { r with
            content := surreal_clean c,
            embedding := insight_embed none c,
            updated := n }
          else r), st.nextId⟩, ?_, ?_⟩
      · simp [add_insight, ht, hc, hmr]
      · intro r hr hnot
        rcases List.mem_map.mp hr with ⟨r0, hr0, rfl⟩
        by_cases h : r0.rid = ex.rid
        · simp [h, insight_embed]
        · simp only [h, if_false] at hnot ⊢
          exact absurd hr0 hnot
  · intro src t split clean σ ht hn
    simp [vectorize, ht, hn]

/-- Witness for C4 (amended): concrete instances of the three behaviors with
no provider configured. -/
theorem claim_C4_no_embedding_provider_witness :
    ((save ⟨none, none, none, [], true, some "text"⟩ "note" "k" none 1 2).warned_no_model =
      true ∧
      ((save ⟨none, none, none, [], true, some "text"⟩ "note" "k" none 1 2).payload).lookup
        "embedding" = some (.vList [])) ∧
    (∃ st', add_insight ⟨[], 0⟩ "source:1" "summary" "S" none 1 = .ok (st', true) ∧
      ∀ r ∈ st'.rows, r ∉ ([] : List InsightRow) → r.embedding = []) ∧
    vectorize "source:s" (some "ab") (fun t => [t]) none (fun s => s) [0] =
      .error .databaseOperation :=
  ⟨claim_C4_no_embedding_provider.1 ⟨none, none, none, [], true, some "text"⟩
      "note" "k" 1 2 "text" rfl rfl,
    claim_C4_no_embedding_provider.2.1 ⟨[], 0⟩ "source:1" "summary" "S" 1
      (by decide) (by decide),
    claim_C4_no_embedding_provider.2.2 "source:s" "ab" (fun t => [t]) (fun s => s) [0]
      (by decide) (by decide)⟩

theorem foldl_set_field_count (b : Bool) (kvs : List (String × SVal)) (st : RecState) :
    (kvs.foldl (fun s p => set_field b s p.1 p.2) st).persist_count =
      st.persist_count + (if b then kvs.length else 0) := by
  induction kvs generalizing st with
  | nil => cases b <;> simp
  | cons p kvs ih =>
    rw [List.foldl_cons, ih]
    cases b with
    | false => simp [set_field]
    | true =>
      simp [set_field, record_update]
      omega

theorem foldl_set_field_fields (b : Bool) (kvs : List (String × SVal)) (st : RecState) :
    (kvs.foldl (fun s p => set_field b s p.1 p.2) st).fields =
      kvs.foldl (fun f p => dict_set f p.1 p.2) st.fields := by
  induction kvs generalizing st with
  | nil => rfl
  | cons p kvs ih =>
    rw [List.foldl_cons, List.foldl_cons, ih]
    cases b <;> simp [set_field, record_update]

/-- Counterexample to C8 as stated: for a `RecordModel` subclass that opts
into auto save, `patch({"x": 1, "y": 2})` performs three persists (one per
validated assignment plus the final `update()`), not exactly one. -/
theorem claim_C8_counterexample :
    (patch true ⟨[], 0⟩ [("x", .vInt 1), ("y", .vInt 2)]).persist_count = 3 ∧
    ¬ (patch true ⟨[], 0⟩ [("x", .vInt 1), ("y", .vInt 2)]).persist_count = 1 := by
  constructor
  · rfl
  · intro h
    cases h

/-- C8 as amended: `patch(field_map)` applies every field mutation and then
persists exactly once for subclasses that do not opt into auto save; for
auto-save subclasses every validated assignment additionally triggers one
persist through `auto_save_validator`, so a k-field patch performs k + 1
persists. -/
theorem claim_C8_patch_persist_count :
    (∀ (st : RecState) (kvs : List (String × SVal)),
      (patch false st kvs).persist_count = st.persist_count + 1) ∧
    (∀ (st : RecState) (kvs : List (String × SVal)),
      (patch true st kvs).persist_count = st.persist_count + kvs.length + 1) ∧
    (∀ (b : Bool) (st : RecState) (kvs : List (String × SVal)),
      (patch b st kvs).fields = kvs.foldl (fun f p => dict_set f p.1 p.2) st.fields) := by
  refine ⟨?_, ?_, ?_⟩
  · intro st kvs
    simp [patch, record_update, foldl_set_field_count]
  · intro st kvs
    simp [patch, record_update, foldl_set_field_count]
  · intro b st kvs
    simp [patch, record_update, foldl_set_field_fields]
